import Mathlib

/-!
Verification of the `enco` image/video transformation pipeline.

The development shallowly embeds the Go sources:
  * `server/main.go` (chained variant): `TransformationPostHandler`, the job
    chain builder, the `fatih/structs` based linking loop, and persistence;
  * `server/fillStruct.go`: `SetField` / `FillStruct`, reflection-based
    coercion of an untyped parameter bag into a typed job struct;
  * `worker/main.go`: the RabbitMQ consumer loop and `encodeVideo`
    (the S3 fetch step), plus the `imageConverter.Resize` transform.

Go-side dynamic values (the `interface{}` results of `json.Unmarshal` into
`map[string]interface{}`) are embedded as `GoValue`; a JSON number always
unmarshals as Go `float64`, whose payload is modelled by an integer since no
claim depends on fractional values, only on the dynamic type tag and on the
value being carried through unchanged.  JSON `null`, arrays and objects are
omitted from the value universe: no claim exercises them (a `null` would in
fact make `reflect.ValueOf(value).Type()` panic in `SetField`).
-/

set_option autoImplicit false

namespace Enco

/-- Dynamic (reflect) types relevant to the target struct:
`string`, `float64`, `bool`, and the embedded struct type `main.Job`. -/
inductive GoType where
  | stringT
  | float64T
  | boolT
  | jobStructT
deriving DecidableEq, Repr

/-- A dynamic Go value as produced by `json.Unmarshal` into `interface{}`:
a JSON string is a Go `string`, a JSON number a Go `float64` (payload
modelled by `Int`), a JSON bool a Go `bool`. -/
inductive GoValue where
  | str (s : String)
  | num (x : Int)
  | boolean (b : Bool)
deriving DecidableEq, Repr

/-- The dynamic type of a value (`reflect.ValueOf(value).Type()`).
Note it is never `jobStructT`: no JSON value has Go type `main.Job`. -/
def goTypeOf : GoValue → GoType
  | .str _ => .stringT
  | .num _ => .float64T
  | .boolean _ => .boolT

/-- `strings.Title` word-boundary test, ASCII fragment: in Go's
`isSeparator`, ASCII letters, digits and underscore are word characters and
everything else is a separator.  All keys in play are ASCII. -/
def goIsSeparator (c : Char) : Bool :=
  !(c.isDigit || c.isAlpha || c == '_')

/-- Character walk of `strings.Title`: the first character of each word is
title-cased (ASCII: upper-cased); the separator test looks at the previous
original character, with an initial virtual separator. -/
def goTitleChars : Bool → List Char → List Char
  | _, [] => []
  | prevSep, c :: rest =>
    (if prevSep then c.toUpper else c) :: goTitleChars (goIsSeparator c) rest

/-- `strings.Title`, as used by `SetField` to capitalize a map key. -/
def goTitle (s : String) : String :=
  ⟨goTitleChars true s.data⟩

/-- `Job` (server/main.go, chained variant): the persisted job record.
Fields `Id`, `ImageId`, `NextJob`, all strings. -/
structure Job where
  Id : String
  ImageId : String
  NextJob : String
deriving DecidableEq, Repr

/-- `ImageResizeToWidthPxJob` (chained variant): embeds `Job` (whose fields
are promoted) and adds `Width float64` (payload modelled by `Int`). -/
structure ImageResizeToWidthPxJob where
  Job : Job
  Width : Int
deriving DecidableEq, Repr

/-- The field table that `reflect` sees on `*ImageResizeToWidthPxJob`:
`FieldByName` finds the embedded field `Job` itself and the promoted fields
`Id`, `ImageId`, `NextJob` of the embedded `Job`, plus `Width`.  All are
exported, and the struct is addressed through a pointer, so every listed
field passes the `CanSet` check. -/
def fieldTypeOf : String → Option GoType
  | "Job" => some .jobStructT
  | "Id" => some .stringT
  | "ImageId" => some .stringT
  | "NextJob" => some .stringT
  | "Width" => some .float64T
  | _ => none

/-- The actual write performed by `structFieldValue.Set(val)` once the name
and type checks passed.  The `"Job"` row is unreachable: `goTypeOf` never
returns `jobStructT`, so the catch-all returning `r` is dead code kept only
for totality. -/
def writeField (r : ImageResizeToWidthPxJob) (name : String) (v : GoValue) :
    ImageResizeToWidthPxJob :=
  match name, v with
  | "Id", .str s => { r with Job := { r.Job with Id := s } }
  | "ImageId", .str s => { r with Job := { r.Job with ImageId := s } }
  | "NextJob", .str s => { r with Job := { r.Job with NextJob := s } }
  | "Width", .num x => { r with Width := x }
  | _, _ => r

/-- `SetField(obj, name, value)` (server/fillStruct.go): capitalize the name
with `strings.Title`, look the field up by name (`No such field` on a miss;
`CanSet` always holds here, see `fieldTypeOf`), require the reflect type of
the field to equal the dynamic type of the value exactly (no conversion),
then write. -/
def SetField (r : ImageResizeToWidthPxJob) (name : String) (value : GoValue) :
    Except String ImageResizeToWidthPxJob :=
  let n := goTitle name
  match fieldTypeOf n with
  | none => .error ("No such field: " ++ n ++ " in obj")
  | some t =>
    if goTypeOf value = t then
      .ok (writeField r n value)
    else
      .error "Provided value type didn't match obj field type"

/-- `FillStruct(data, result)` (server/fillStruct.go): iterate the map
entries, applying `SetField` and aborting on the first error.  Go map
iteration order is unspecified; the embedding fixes a list order, and the
fields written by distinct keys are independent, so success and the final
struct are order-independent for the JSON-derived maps in play (distinct
keys). -/
def FillStruct : List (String × GoValue) → ImageResizeToWidthPxJob →
    Except String ImageResizeToWidthPxJob
  | [], r => .ok r
  | (k, v) :: rest, r =>
    match SetField r k v with
    | .error e => .error e
    | .ok r2 => FillStruct rest r2

/-- Success test for an `Except`-valued computation. -/
def isOkE {α : Type} : Except String α → Bool
  | .ok _ => true
  | .error _ => false

/-- `TransformationJob` (server/main.go): one entry of the client-submitted
list, a `jobType` tag plus an untyped parameter bag (`data`). -/
structure TransformationJob where
  JobType : String
  Data : List (String × GoValue)
deriving DecidableEq, Repr

/-- The per-entry loop of `TransformationPostHandler` (chained variant,
the validation pass): for an entry with `jobType == "resizeToWidthPx"`, a
fresh `ImageResizeToWidthPxJob` is zero-initialized, its embedded `Job.Id`
is set to `uuid.New()` (modelled by an id supply indexed by the number of
`uuid.New()` calls so far) and `Job.ImageId` to the image's id, then
`FillStruct(job.Data, &validJob)` runs; on error the entry's `data` is
appended to `invalidJobs`, otherwise the EMBEDDED `validJob.Job` (not the
full struct) is appended to `validJobs`.  Any other `jobType` appends the
entry's `data` to `invalidJobs`.  Returns `(validJobs, invalidJobs)` in
loop order. -/
def buildJobs (imageId : String) (ids : Nat → String) :
    List TransformationJob → Nat → List Job × List (List (String × GoValue))
  | [], _ => ([], [])
  | t :: rest, k =>
    if t.JobType = "resizeToWidthPx" then
      match FillStruct t.Data
          { Job := { Id := ids k, ImageId := imageId, NextJob := "" }, Width := 0 } with
      | .error _ =>
        ((buildJobs imageId ids rest (k + 1)).1,
         t.Data :: (buildJobs imageId ids rest (k + 1)).2)
      | .ok filled =>
        (filled.Job :: (buildJobs imageId ids rest (k + 1)).1,
         (buildJobs imageId ids rest (k + 1)).2)
    else
      ((buildJobs imageId ids rest k).1,
       t.Data :: (buildJobs imageId ids rest k).2)

/-- The HTTP response body of `TransformationPostHandler`: a JSON object
with keys `validJobs` and `invalidJobs` when any entry was invalid, or a
single key `jobs` otherwise. -/
inductive TransformResponse where
  | withInvalid (validJobs : List Job) (invalidJobs : List (List (String × GoValue)))
  | jobsOnly (jobs : List Job)
deriving DecidableEq, Repr

/-- The response-selection branch of the handler
(`if len(invalidJobs) > 0`). -/
def buildResponse (validJobs : List Job)
    (invalidJobs : List (List (String × GoValue))) : TransformResponse :=
  if invalidJobs.length > 0 then
    .withInvalid validJobs invalidJobs
  else
    .jobsOnly validJobs

/-- Models `jobStruct.Field("NextJob").Set(nextJobIdValue)` in the linking
loop.  `jobStruct` is `structs.New(job)` where `job` is the `range` copy of
a `[]interface{}` element boxing a `Job` struct VALUE (not a pointer);
`reflect.ValueOf` on it yields a non-addressable value, so `fatih/structs`
`Field.Set` fails its `CanSet` check and returns `errNotSettable` without
performing any write.  The call site discards this error. -/
def fieldSetOnValueCopy (_j : Job) (_v : String) : Except String Unit :=
  .error "field is not settable"

/-- The "Add next jobs to struct" loop of the chained handler:
`for i, job := range validJobs { if len(validJobs) != (i+1) { ... Set ... } }`.
It reads `validJobs[i+1]`'s `Id` and attempts the reflective `Set` of
`NextJob` on `validJobs[i]`; on a (hypothetical) successful `Set` the write
would land in the shared boxed value, i.e. in slice position `i`; the
actual `Set` always fails (`fieldSetOnValueCopy`) and its error is
discarded, so the pass leaves the slice unchanged. -/
def linkJobs (validJobs : List Job) : List Job :=
  (List.range validJobs.length).foldl
    (fun jobs i =>
      if jobs.length ≠ i + 1 then
        match jobs.get? (i + 1), jobs.get? i with
        | some nextJob, some cur =>
          match fieldSetOnValueCopy cur nextJob.Id with
          | .ok _ => jobs.set i { cur with NextJob := nextJob.Id }
          | .error _ => jobs
        | _, _ => jobs
      else jobs)
    validJobs

/-- `TransformationPostHandler` (chained variant), the pure core acting on
an already-fetched image id and a parsed transformation list: validate and
build (`buildJobs`), select the response body, run the linking pass, then
insert each element of the (linked) `validJobs` slice into the `jobs`
table in order.  Returns `(response, persisted jobs)`.  In the source the
response map aliases the same slice and is marshalled after the linking
loop, which (see `linkJobs`) leaves the slice unchanged, so building the
response from the pre-link slice is exact. -/
def transformationPostHandler (imageId : String) (ids : Nat → String)
    (ts : List TransformationJob) : TransformResponse × List Job :=
  (buildResponse (buildJobs imageId ids ts 0).1 (buildJobs imageId ids ts 0).2,
   linkJobs (buildJobs imageId ids ts 0).1)

/-! ### Worker: RabbitMQ consumer loop (worker/main.go, `main`) -/

/-- Observable steps of the worker's consumer goroutine, in program order. -/
inductive WorkerEvent where
  | ackMsg
  | unmarshalAttempt
  | fatalExit
  | encodeStart
deriving DecidableEq, Repr

/-- The body of `for d := range msgs`: the delivery is ACKNOWLEDGED first
(`d.Ack(false)`), then `json.Unmarshal(d.Body, &job)` runs (its success is
abstracted to a per-message boolean), and on an unmarshal error the worker
calls `log.Fatal`, which terminates the process; otherwise the
encode/transform step starts. -/
def consumeMessage (bodyParses : Bool) : List WorkerEvent :=
  [WorkerEvent.ackMsg] ++ [WorkerEvent.unmarshalAttempt] ++
    (if bodyParses then [WorkerEvent.encodeStart] else [WorkerEvent.fatalExit])

/-- The whole receive loop over a finite delivery sequence: each delivery
contributes its `consumeMessage` trace; a message whose body fails to
unmarshal ends the process (`log.Fatal`), so later deliveries are never
seen.  Returns the event trace and whether the process crashed. -/
def consumerLoop : List Bool → List WorkerEvent × Bool
  | [] => ([], false)
  | b :: rest =>
    if b then
      let (evs, crashed) := consumerLoop rest
      (consumeMessage b ++ evs, crashed)
    else
      (consumeMessage b, true)

/-! ### Worker: `encodeVideo` (worker/main.go), the S3 fetch step -/

/-- The worker-local state observed by `encodeVideo`: the local filesystem
(path to contents) and a count of remote `s3bucket.Get` calls performed. -/
structure WorkerFS where
  files : List (String × List Nat)
  downloads : Nat
deriving DecidableEq, Repr

/-- `ioutil.WriteFile`: create or overwrite the file at `path`. -/
def fsWrite (files : List (String × List Nat)) (path : String)
    (content : List Nat) : List (String × List Nat) :=
  (path, content) :: files.filter (fun p => p.1 ≠ path)

/-- `encodeVideo(videoFilename, s3bucket)` (worker/main.go): it calls
`s3bucket.Get(videoFilename)` UNCONDITIONALLY (there is no existence check
on the local path), then writes the bytes to `pwd + "/" + videoFilename`.
A `Get` or write error hits `log.Fatal` (process death, modelled as
`none`). -/
def encodeVideo (bucket : String → Option (List Nat)) (pwd : String)
    (videoFilename : String) (st : WorkerFS) : Option WorkerFS :=
  match bucket videoFilename with
  | none => none
  | some bytes =>
    some { files := fsWrite st.files (pwd ++ "/" ++ videoFilename) bytes,
           downloads := st.downloads + 1 }

/-! ### Worker: `imageConverter.Resize` (worker, second part) -/

/-- Inner walk of Go's `filepath.Ext`, processing the path from its end:
at each step `seen` holds the characters strictly after the current
position; a path separator stops the scan with `""`, a dot returns the
suffix starting at the dot. -/
def goExtLoop : List Char → List Char → List Char
  | [], _ => []
  | c :: rest, seen =>
    if c = '/' then []
    else if c = '.' then c :: seen
    else goExtLoop rest (c :: seen)

/-- `filepath.Ext(path)`: the suffix beginning at the final dot in the
final slash-separated element, or `""` if there is none. -/
def goExt (path : List Char) : List Char :=
  goExtLoop path.reverse []

/-- `strings.TrimSuffix(s, suffix)`: drop `suffix` when it is one. -/
def goTrimSuffix (s suf : List Char) : List Char :=
  if suf <:+ s then s.take (s.length - suf.length) else s

/-- The output-name computation of `Resize` (worker, lines building
`converteImageFileName`): strip the extension, then rebuild as
`name + "-" + timestamp + extension`, where `timestamp` is
`time.Now().Format(time.RFC850)`, kept as a parameter. -/
def convertedChars (fileName timestamp : List Char) : List Char :=
  let fileExtension := goExt fileName
  let name := goTrimSuffix fileName fileExtension
  name ++ ['-'] ++ timestamp ++ fileExtension

/-- String-level wrapper for the `Resize` output name. -/
def convertedImageFileName (fileName timestamp : String) : String :=
  ⟨convertedChars fileName.data timestamp.data⟩

/-- Result of `Resize(fileName)`: either the read failed (returned as an
error), or the image was resized.  The model records the exact dimension
pair handed to `mw.ResizeImage` and the output file name handed to
`mw.WriteImage`. -/
inductive ResizeResult where
  | readError
  | resized (resizeArgs : Nat × Nat) (outputName : String)
deriving DecidableEq, Repr

/-- `Resize(fileName)` (worker, `imageConverter`), with the ImageMagick
calls abstracted: `readImage` is `none` when `mw.ReadImage` fails, else the
source's unsigned pixel dimensions.  The halved dimensions
`uint(width / 2)`, `uint(height / 2)` are computed and passed to
`mw.ResizeImage` with NO validity check of any kind (no rejection path for
a zero dimension exists in the source), and the output is written under
`convertedImageFileName`. -/
def Resize (readImage : Option (Nat × Nat)) (fileName timestamp : String) :
    ResizeResult :=
  match readImage with
  | none => .readError
  | some (width, height) =>
    .resized (width / 2, height / 2) (convertedImageFileName fileName timestamp)

end Enco

section ScratchChecks

example : Enco.goTitle "id" = "Id" := by decide
example : Enco.goTitle "nextJob" = "NextJob" := by decide
example : Enco.goTitle "imageId" = "ImageId" := by decide
example : Enco.goTitle "width" = "Width" := by decide

example :
    Enco.FillStruct [("width", Enco.GoValue.num 100)]
      { Job := { Id := "a", ImageId := "b", NextJob := "" }, Width := 0 } =
    Except.ok { Job := { Id := "a", ImageId := "b", NextJob := "" }, Width := 100 } := by
  rfl

example :
    Enco.isOkE (Enco.FillStruct [("width", Enco.GoValue.str "100")]
      { Job := { Id := "a", ImageId := "b", NextJob := "" }, Width := 0 }) = false := by
  decide

example :
    Enco.transformationPostHandler "img" (fun n => "u" ++ toString n)
      [⟨"resizeToWidthPx", [("width", Enco.GoValue.num 100)]⟩,
       ⟨"resizeToWidthPx", [("width", Enco.GoValue.num 50)]⟩] =
    (Enco.TransformResponse.jobsOnly
       [{ Id := "u0", ImageId := "img", NextJob := "" },
        { Id := "u1", ImageId := "img", NextJob := "" }],
     [{ Id := "u0", ImageId := "img", NextJob := "" },
      { Id := "u1", ImageId := "img", NextJob := "" }]) := by
  rfl

example :
    Enco.transformationPostHandler "img" (fun n => "u" ++ toString n)
      [⟨"resizeToWidthPx", [("width", Enco.GoValue.num 100)]⟩,
       ⟨"unknownType", [("foo", Enco.GoValue.num 1)]⟩] =
    (Enco.TransformResponse.withInvalid
       [{ Id := "u0", ImageId := "img", NextJob := "" }]
       [[("foo", Enco.GoValue.num 1)]],
     [{ Id := "u0", ImageId := "img", NextJob := "" }]) := by
  rfl

example : Enco.consumeMessage true =
    [Enco.WorkerEvent.ackMsg, Enco.WorkerEvent.unmarshalAttempt,
     Enco.WorkerEvent.encodeStart] := by decide

example : Enco.consumerLoop [false, true] =
    ([Enco.WorkerEvent.ackMsg, Enco.WorkerEvent.unmarshalAttempt,
      Enco.WorkerEvent.fatalExit], true) := by decide

example : Enco.convertedImageFileName "cat.png" "TS" = "cat-TS.png" := by decide

example : Enco.convertedImageFileName "noext" "TS" = "noext-TS" := by decide

example : Enco.Resize (some (1, 1)) "cat.png" "TS" =
    Enco.ResizeResult.resized (0, 0) "cat-TS.png" := by decide

end ScratchChecks

namespace Enco

/-- The zero value of `ImageResizeToWidthPxJob` (`var validJob ...` before
the builder assigns ids), used as a fixed reference struct: `FillStruct`
success does not depend on the struct being filled. -/
def defaultResizeJob : ImageResizeToWidthPxJob :=
  { Job := { Id := "", ImageId := "", NextJob := "" }, Width := 0 }

/-- An entry the handler accepts: recognized `jobType` and a parameter bag
that `FillStruct` coerces without error. -/
def entryAccepted (t : TransformationJob) : Bool :=
  t.JobType == "resizeToWidthPx" && isOkE (FillStruct t.Data defaultResizeJob)

/-- `SetField` succeeds exactly when the `strings.Title`-capitalized key
names a settable field whose reflect type equals the value's dynamic type;
in particular success does not depend on the struct being written. -/
theorem setField_isOk (r : ImageResizeToWidthPxJob) (k : String) (v : GoValue) :
    isOkE (SetField r k v) = decide (fieldTypeOf (goTitle k) = some (goTypeOf v)) := by
  by_cases hv : fieldTypeOf (goTitle k) = some (goTypeOf v)
  · simp [SetField, hv, isOkE]
  · cases h : fieldTypeOf (goTitle k) with
    | none => simp [SetField, h, isOkE, hv]
    | some t =>
      have ht : goTypeOf v ≠ t := fun he => hv (by rw [h, he])
      simp [SetField, h, isOkE, ht, hv]
      exact fun he => ht he.symm

/-- `FillStruct` succeeds exactly when every entry of the bag passes the
per-field name-and-type check; success does not depend on the struct being
filled. -/
theorem fillStruct_isOk (data : List (String × GoValue)) (r : ImageResizeToWidthPxJob) :
    isOkE (FillStruct data r) =
      data.all (fun kv => decide (fieldTypeOf (goTitle kv.1) = some (goTypeOf kv.2))) := by
  induction data generalizing r with
  | nil => rfl
  | cons kv rest ih =>
    obtain ⟨k, v⟩ := kv
    have hset := setField_isOk r k v
    cases h : SetField r k v with
    | error e =>
      rw [h] at hset
      simp only [isOkE] at hset
      simp [FillStruct, h, isOkE, List.all_cons, ← hset]
    | ok r2 =>
      rw [h] at hset
      simp only [isOkE] at hset
      simp [FillStruct, h, List.all_cons, ← hset, ih r2]

/-- A fold whose step function returns its accumulator unchanged is the
identity. -/
theorem foldl_fixed {α β : Type} (f : α → β → α) (h : ∀ a b, f a b = a)
    (init : α) (l : List β) : List.foldl f init l = init := by
  induction l generalizing init with
  | nil => rfl
  | cons b rest ih => rw [List.foldl_cons, h, ih]

/-- The linking pass leaves the job slice unchanged: every reflective
`Set` of `NextJob` fails on the non-addressable value copy and its error is
discarded. -/
theorem linkJobs_eq (jobs : List Job) : linkJobs jobs = jobs := by
  unfold linkJobs
  apply foldl_fixed
  intro a b
  by_cases h : a.length ≠ b + 1
  · rw [if_pos h]
    cases a.get? (b + 1) <;> cases a.get? b <;> simp [fieldSetOnValueCopy]
  · rw [if_neg h]

/-- The persisted job list of the handler is exactly the builder's valid
list (the linking pass is a no-op). -/
theorem handler_persisted (imageId : String) (ids : Nat → String)
    (ts : List TransformationJob) :
    (transformationPostHandler imageId ids ts).2 = (buildJobs imageId ids ts 0).1 := by
  simp [transformationPostHandler, linkJobs_eq]

/-- The two output lists of `buildJobs`: the invalid list is the data bags
of the rejected entries in order, and one job is built per accepted entry. -/
theorem buildJobs_spec (imageId : String) (ids : Nat → String)
    (ts : List TransformationJob) (k : Nat) :
    (buildJobs imageId ids ts k).2 =
      (ts.filter (fun t => !entryAccepted t)).map TransformationJob.Data ∧
    (buildJobs imageId ids ts k).1.length =
      (ts.filter (fun t => entryAccepted t)).length := by
  induction ts generalizing k with
  | nil => exact ⟨rfl, rfl⟩
  | cons t rest ih =>
    by_cases hjt : t.JobType = "resizeToWidthPx"
    · cases hfs : FillStruct t.Data
          { Job := { Id := ids k, ImageId := imageId, NextJob := "" }, Width := 0 } with
      | error e =>
        have hacc : entryAccepted t = false := by
          have h1 : isOkE (FillStruct t.Data
              { Job := { Id := ids k, ImageId := imageId, NextJob := "" }, Width := 0 }) = false := by
            rw [hfs]; rfl
          rw [fillStruct_isOk] at h1
          simp [entryAccepted, fillStruct_isOk, h1]
        simp [buildJobs, hjt, hfs, List.filter_cons, hacc, (ih (k + 1)).1, (ih (k + 1)).2]
      | ok filled =>
        have hacc : entryAccepted t = true := by
          have h1 : isOkE (FillStruct t.Data
              { Job := { Id := ids k, ImageId := imageId, NextJob := "" }, Width := 0 }) = true := by
            rw [hfs]; rfl
          rw [fillStruct_isOk] at h1
          simp [entryAccepted, fillStruct_isOk, h1, hjt]
        simp [buildJobs, hjt, hfs, List.filter_cons, hacc, (ih (k + 1)).1, (ih (k + 1)).2]
    · have hacc : entryAccepted t = false := by
        simp [entryAccepted, hjt]
      simp [buildJobs, hjt, List.filter_cons, hacc, (ih k).1, (ih k).2]

/-- The `filepath.Ext` scan returns a suffix of `r.reverse ++ seen`, the
tail of the path not yet consumed plus what was already seen. -/
theorem goExtLoop_suffix (r seen : List Char) :
    goExtLoop r seen <:+ (r.reverse ++ seen) := by
  induction r generalizing seen with
  | nil => exact List.nil_suffix
  | cons c rest ih =>
    unfold goExtLoop
    by_cases hs : c = '/'
    · rw [if_pos hs]
      exact List.nil_suffix
    · rw [if_neg hs]
      by_cases hd : c = '.'
      · rw [if_pos hd]
        refine ⟨rest.reverse, ?_⟩
        simp
      · rw [if_neg hd]
        have := ih (c :: seen)
        simpa using this

/-- `filepath.Ext path` is a suffix of `path`. -/
theorem goExt_suffix (path : List Char) : goExt path <:+ path := by
  have := goExtLoop_suffix path.reverse []
  simpa [goExt] using this

/-- Trimming a suffix and appending it back restores the original. -/
theorem goTrimSuffix_append (s suf : List Char) (h : suf <:+ s) :
    goTrimSuffix s suf ++ suf = s := by
  obtain ⟨t, ht⟩ := h
  subst ht
  rw [goTrimSuffix, if_pos ⟨t, rfl⟩]
  simp [List.take_left]

/-- The `Resize` output name is one plus the timestamp's length longer than
the input name. -/
theorem convertedChars_length (fileName timestamp : List Char) :
    (convertedChars fileName timestamp).length =
      fileName.length + 1 + timestamp.length := by
  have h := goTrimSuffix_append fileName (goExt fileName) (goExt_suffix fileName)
  have hlen : (goTrimSuffix fileName (goExt fileName)).length + (goExt fileName).length =
      fileName.length := by
    have := congrArg List.length h
    simpa using this
  simp [convertedChars]
  omega

end Enco

namespace Enco

/-- C1: the claim states that for a valid transformation list of length n
the handler produces n jobs and links them, `chain[i].NextJob =
chain[i+1].Id` with empty terminal successor.  The code builds exactly n
jobs, but its linking pass is a no-op — `fatih/structs` `Field.Set` fails
on a non-addressable value copy and the call site discards the error — so
on two valid entries BOTH persisted jobs keep `NextJob = ""` while the
second job's id is `"uuid-1"`: the first job's `NextJob` does not equal the
second job's `Id`. -/
theorem C1_linking_noop :
    (∀ jobs : List Job, linkJobs jobs = jobs) ∧
    (transformationPostHandler "img-1" (fun n => "uuid-" ++ toString n)
        [⟨"resizeToWidthPx", [("width", GoValue.num 100)]⟩,
         ⟨"resizeToWidthPx", [("width", GoValue.num 50)]⟩]).2 =
      [{ Id := "uuid-0", ImageId := "img-1", NextJob := "" },
       { Id := "uuid-1", ImageId := "img-1", NextJob := "" }] ∧
    ({ Id := "uuid-0", ImageId := "img-1", NextJob := "" } : Job).NextJob ≠
      ({ Id := "uuid-1", ImageId := "img-1", NextJob := "" } : Job).Id := by
  refine ⟨linkJobs_eq, by rfl, by decide⟩

/-- C2: the claim states the consumer never acknowledges a delivery before
the transform/encode work for it has returned.  In the code `d.Ack(false)`
is the FIRST step of the loop body for every delivery, before
`json.Unmarshal` and before `encodeVideo` starts: the ack is premature. -/
theorem C2_ack_before_processing :
    (∀ b, (consumeMessage b).head? = some WorkerEvent.ackMsg) ∧
    consumeMessage true =
      [WorkerEvent.ackMsg, WorkerEvent.unmarshalAttempt, WorkerEvent.encodeStart] := by
  exact ⟨fun b => by cases b <;> rfl, rfl⟩

/-- C3: the claim states a malformed payload is rejected without requeue
and the loop continues without crashing.  In the code the delivery has
already been acked (so it is indeed never redelivered), but the unmarshal
error hits `log.Fatal`: the process exits, the loop does not continue, and
a following well-formed delivery is never processed. -/
theorem C3_fatal_on_malformed :
    consumerLoop [false, true] =
      ([WorkerEvent.ackMsg, WorkerEvent.unmarshalAttempt, WorkerEvent.fatalExit], true) ∧
    (consumerLoop [true]).2 = false := by
  exact ⟨rfl, rfl⟩

/-- C4: each entry whose `jobType` is not the recognized
`"resizeToWidthPx"` (and each entry failing coercion) has its data bag
appended to the invalid list and produces no Job, while the loop continues,
so valid entries elsewhere in the list are still accepted; the response
carries both lists exactly when the invalid list is non-empty, and only the
accepted jobs otherwise. -/
theorem C4_partial_acceptance (imageId : String) (ids : Nat → String)
    (ts : List TransformationJob) :
    (buildJobs imageId ids ts 0).2 =
      (ts.filter (fun t => !entryAccepted t)).map TransformationJob.Data ∧
    (buildJobs imageId ids ts 0).1.length =
      (ts.filter (fun t => entryAccepted t)).length ∧
    (∀ t ∈ ts, t.JobType ≠ "resizeToWidthPx" →
      t.Data ∈ (buildJobs imageId ids ts 0).2) ∧
    (transformationPostHandler imageId ids ts).1 =
      (if (buildJobs imageId ids ts 0).2 = [] then
        TransformResponse.jobsOnly (buildJobs imageId ids ts 0).1
      else
        TransformResponse.withInvalid (buildJobs imageId ids ts 0).1
          (buildJobs imageId ids ts 0).2) := by
  obtain ⟨h2, h1⟩ := buildJobs_spec imageId ids ts 0
  refine ⟨h2, h1, ?_, ?_⟩
  · intro t ht hjt
    rw [h2]
    refine List.mem_map.2 ⟨t, List.mem_filter.2 ⟨ht, ?_⟩, rfl⟩
    simp [entryAccepted, hjt]
  · cases hinv : (buildJobs imageId ids ts 0).2 with
    | nil => simp [transformationPostHandler, buildResponse, hinv]
    | cons x xs => simp [transformationPostHandler, buildResponse, hinv]

/-- C4 witness at a concrete input: one valid resize entry plus one
unknown-type entry give one accepted job, the unknown entry's bag in the
invalid list, and a response reporting both. -/
theorem C4_partial_acceptance_witness :
    (buildJobs "img" (fun n => "u" ++ toString n)
        [⟨"resizeToWidthPx", [("width", GoValue.num 100)]⟩,
         ⟨"unknownType", [("foo", GoValue.num 1)]⟩] 0).2 =
      [[("foo", GoValue.num 1)]] ∧
    (buildJobs "img" (fun n => "u" ++ toString n)
        [⟨"resizeToWidthPx", [("width", GoValue.num 100)]⟩,
         ⟨"unknownType", [("foo", GoValue.num 1)]⟩] 0).1.length = 1 := by
  have h := C4_partial_acceptance "img" (fun n => "u" ++ toString n)
    [⟨"resizeToWidthPx", [("width", GoValue.num 100)]⟩,
     ⟨"unknownType", [("foo", GoValue.num 1)]⟩]
  exact ⟨by rw [h.1]; rfl, by rw [h.2.1]; rfl⟩

/-- C5: the claim states the fetch is idempotent — a second invocation with
no deletion in between performs no second download.  `encodeVideo` has no
local-existence check: it calls `s3bucket.Get` unconditionally, so two
invocations on the same key perform TWO remote downloads, not one. -/
theorem C5_two_downloads :
    (Option.bind
        (encodeVideo (fun k => if k = "v.mp4" then some [7] else none) "/work" "v.mp4"
          { files := [], downloads := 0 })
        (encodeVideo (fun k => if k = "v.mp4" then some [7] else none) "/work" "v.mp4")).map
      WorkerFS.downloads = some 2 ∧ some 2 ≠ some (1 : Nat) := by
  exact ⟨rfl, by decide⟩

/-- C5 amended: the fetch is not idempotent; every successful invocation
performs exactly one remote download and (re)writes the deterministic local
path `pwd + "/" + key`, so two invocations with no deletion in between
perform exactly two downloads. -/
theorem C5_always_downloads (bucket : String → Option (List Nat))
    (pwd key : String) (st : WorkerFS) (bytes : List Nat)
    (h : bucket key = some bytes) :
    ∃ st1 st2, encodeVideo bucket pwd key st = some st1 ∧
      encodeVideo bucket pwd key st1 = some st2 ∧
      st1.downloads = st.downloads + 1 ∧
      st2.downloads = st.downloads + 2 ∧
      st1.files.head? = some (pwd ++ "/" ++ key, bytes) := by
  refine ⟨{ files := fsWrite st.files (pwd ++ "/" ++ key) bytes,
            downloads := st.downloads + 1 },
          { files := fsWrite (fsWrite st.files (pwd ++ "/" ++ key) bytes)
              (pwd ++ "/" ++ key) bytes,
            downloads := st.downloads + 2 },
          ?_, ?_, rfl, rfl, ?_⟩
  · simp [encodeVideo, h]
  · simp [encodeVideo, h]
  · simp [fsWrite]

/-- C5 amended, witness at a concrete input. -/
theorem C5_always_downloads_witness :
    ∃ st1 st2,
      encodeVideo (fun k => if k = "a.mp4" then some [1] else none) "/w" "a.mp4"
        { files := [], downloads := 0 } = some st1 ∧
      encodeVideo (fun k => if k = "a.mp4" then some [1] else none) "/w" "a.mp4" st1 =
        some st2 ∧
      st1.downloads = 0 + 1 ∧
      st2.downloads = 0 + 2 ∧
      st1.files.head? = some ("/w" ++ "/" ++ "a.mp4", [1]) :=
  C5_always_downloads (fun k => if k = "a.mp4" then some [1] else none) "/w" "a.mp4"
    { files := [], downloads := 0 } [1] (by decide)

/-- C6: the claim states computed output dimensions are never zero or
negative, with offending inputs rejected via `InvalidParameterError`.  On a
1×1 source `Resize` computes `(1/2, 1/2) = (0, 0)` and passes it straight
to `ResizeImage`: a zero dimension IS produced and nothing is rejected. -/
theorem C6_zero_dimension :
    Resize (some (1, 1)) "cat.png" "TS" =
      ResizeResult.resized (0, 0) "cat-TS.png" := by
  decide

/-- C6 amended: output dimensions are the unsigned integer halves
`(w / 2, h / 2)` of the source dimensions, hence never negative, but they
are zero exactly when the source dimension is at most 1, and every readable
input is processed with those dimensions — no rejection path (no
`InvalidParameterError`) exists in the code. -/
theorem C6_dims_never_rejected (w h : Nat) (fileName timestamp : String) :
    Resize (some (w, h)) fileName timestamp =
      ResizeResult.resized (w / 2, h / 2)
        (convertedImageFileName fileName timestamp) ∧
    (w / 2 = 0 ↔ w ≤ 1) ∧ (h / 2 = 0 ↔ h ≤ 1) := by
  refine ⟨rfl, ?_, ?_⟩ <;> omega

/-- C7: the claim states every persisted Job carries its jobType-specific
parameters (a resizeToWidthPx Job its numeric width).  The handler persists
`validJob.Job` — only `Id`, `ImageId`, `NextJob` — so two requests
differing only in the submitted width persist IDENTICAL (and non-empty)
job records: the width is not carried. -/
theorem C7_width_dropped :
    (transformationPostHandler "img" (fun n => "uuid-" ++ toString n)
        [⟨"resizeToWidthPx", [("width", GoValue.num 100)]⟩]).2 =
      (transformationPostHandler "img" (fun n => "uuid-" ++ toString n)
        [⟨"resizeToWidthPx", [("width", GoValue.num 200)]⟩]).2 ∧
    (transformationPostHandler "img" (fun n => "uuid-" ++ toString n)
        [⟨"resizeToWidthPx", [("width", GoValue.num 100)]⟩]).2 ≠ [] := by
  exact ⟨rfl, by decide⟩

/-- C7 amended: parameters are validated at build time — an entry whose bag
fails `FillStruct` coercion against the jobType's struct is never persisted
and its bag is reported invalid — but the persisted record is the embedded
`Job` only (id, imageId, nextJob): the validated width is dropped before
persistence. -/
theorem C7_validated_not_persisted (imageId : String) (ids : Nat → String)
    (ts : List TransformationJob) :
    (transformationPostHandler imageId ids ts).2 = (buildJobs imageId ids ts 0).1 ∧
    (transformationPostHandler imageId ids ts).2.length =
      (ts.filter (fun t => entryAccepted t)).length ∧
    (∀ t ∈ ts, t.JobType = "resizeToWidthPx" →
      isOkE (FillStruct t.Data defaultResizeJob) = false →
      t.Data ∈ (buildJobs imageId ids ts 0).2) := by
  obtain ⟨h2, h1⟩ := buildJobs_spec imageId ids ts 0
  refine ⟨handler_persisted imageId ids ts, ?_, ?_⟩
  · rw [handler_persisted imageId ids ts, h1]
  · intro t ht hjt hfs
    rw [h2]
    refine List.mem_map.2 ⟨t, List.mem_filter.2 ⟨ht, ?_⟩, rfl⟩
    simp [entryAccepted, hfs]

/-- C8: the transform executor derives an output path distinct from the
input path for every input file name and every timestamp: `Resize` writes
to `name + "-" + timestamp + extension`, which is strictly longer than the
input `fileName = name + extension`, so the source file is never
overwritten. -/
theorem C8_output_path_distinct (fileName timestamp : String) :
    convertedImageFileName fileName timestamp ≠ fileName := by
  intro he
  have hd : convertedChars fileName.data timestamp.data = fileName.data :=
    congrArg String.data he
  have hl := congrArg List.length hd
  rw [convertedChars_length] at hl
  omega

/-- C9: `FillStruct` runs after the builder assigned the fresh `Id` and
`ImageId`, and it can set any exported field of the target including the
embedded `Job`'s promoted fields: a resizeToWidthPx entry whose bag holds
string values under `"id"`, `"imageId"` and `"nextJob"` yields a persisted
Job whose fields equal the client-supplied values, not the
builder-assigned ones (`"uuid-0"` / `"real-img"` / `""`). -/
theorem C9_client_overrides_job_fields :
    (transformationPostHandler "real-img" (fun n => "uuid-" ++ toString n)
        [⟨"resizeToWidthPx",
          [("width", GoValue.num 100), ("id", GoValue.str "client-id"),
           ("nextJob", GoValue.str "client-next"),
           ("imageId", GoValue.str "client-img")]⟩]).2 =
      [{ Id := "client-id", ImageId := "client-img", NextJob := "client-next" }] ∧
    "client-id" ≠ "uuid-0" := by
  exact ⟨rfl, by decide⟩

/-- C10: `FillStruct(data, result)` succeeds exactly when every key of the
bag, capitalized by `strings.Title`, names a settable field of the target
whose reflect type equals the dynamic type of the supplied value (no
conversion); consequently a bag with a correct width plus an unrecognized
extra key fails, a bag whose width is not a float64 fails, and the handler
classifies such an entry invalid. -/
theorem C10_fillstruct_characterization :
    (∀ (data : List (String × GoValue)) (r : ImageResizeToWidthPxJob),
      isOkE (FillStruct data r) =
        data.all (fun kv =>
          decide (fieldTypeOf (goTitle kv.1) = some (goTypeOf kv.2)))) ∧
    isOkE (FillStruct [("width", GoValue.num 100), ("foo", GoValue.num 1)]
      defaultResizeJob) = false ∧
    isOkE (FillStruct [("width", GoValue.str "100")] defaultResizeJob) = false ∧
    (transformationPostHandler "img" (fun n => "u" ++ toString n)
        [⟨"resizeToWidthPx",
          [("width", GoValue.num 100), ("foo", GoValue.num 1)]⟩]).1 =
      TransformResponse.withInvalid []
        [[("width", GoValue.num 100), ("foo", GoValue.num 1)]] := by
  exact ⟨fillStruct_isOk, by decide, by decide, by rfl⟩

end Enco
